import Mathlib

/-!
A shallow embedding of
`recipes/streaming_convnets/inference/inference/examples/MultithreadedStreamingASRExample.cpp`
(the multithreaded streaming ASR example driver), together with proofs about
its input enumeration, setup loading, error handling, pipeline composition,
output-path construction and progress accounting.

Conventions of the embedding:
* file contents are `String`s; a file system is a partial map from full path
  to contents, where `none` models an `ifstream` whose `is_open()` is false;
* a deserialized module graph is opaque to the driver, so a loaded module is
  represented by the contents of the file it was deserialized from;
* a `std::runtime_error` thrown in `main` is uncaught, so the remainder of
  `main` — pool creation and the submission loop included — never runs; `main`
  is therefore an `Except String` computation.
-/

namespace StreamingASR

/-- Splitting a file's characters into lines with the semantics of repeated
`std::getline`: a newline ends a line and is consumed; a final segment with no
trailing newline is still a line; when nothing remains no further line is
produced (so a trailing newline does not yield an extra empty line). -/
def getLinesAux : List Char → List (List Char)
  | [] => []
  | c :: cs =>
    if c = '\n' then [] :: getLinesAux cs
    else
      match getLinesAux cs with
      | [] => [[c]]
      | t :: ts => (c :: t) :: ts

/-- Lines of a file's contents, as strings, in `std::getline` order. -/
def getLines (s : String) : List String :=
  (getLinesAux s.toList).map List.asString

/-- Delimiter test of the inline-list scan (source lines 126-138):
`find_first_of(",;", start)` accepts a comma or a semicolon. -/
def isDelimiter (c : Char) : Bool := c == ',' || c == ';'

/-- The substrings between delimiter occurrences, in order and including the
empty ones: exactly the `substr(start, pos - start)` pieces the scanning loop
of source lines 127-137 visits (there is always a final piece after the last
delimiter, possibly empty). -/
def splitAtDelimiters : List Char → List (List Char)
  | [] => [[]]
  | c :: cs =>
    if isDelimiter c then [] :: splitAtDelimiters cs
    else
      match splitAtDelimiters cs with
      | [] => [[c]]
      | t :: ts => (c :: t) :: ts

/-- Inline audio-list tokenization (source lines 126-138): skipped entirely
when the flag is empty, and pieces of length zero are not pushed
("ignore empty tokens"). -/
def tokenizeInline (s : String) : List String :=
  if s = "" then []
  else ((splitAtDelimiters s.toList).filter (fun t => t.length > 0)).map List.asString

/-- Modelled from the spec: a file name already is a full path when it starts
with the path separator ("path is added as prefix to input files unless the
input file is a full path", source lines 66-70). -/
def isFullPath (fileName : String) : Bool :=
  match fileName.toList with
  | [] => false
  | c :: _ => c == '/'

/-- Modelled from the spec: `GetFullPath` lives in `inference/examples/Util.h`,
which is not under `src/`; per the flag help text ("path is added as prefix to
input files unless the input file is a full path") it returns full paths
unchanged and otherwise joins the base path and the name with the separator. -/
def GetFullPath (fileName basePath : String) : String :=
  if isFullPath fileName then fileName else basePath ++ "/" ++ fileName

/-- Modelled from the spec: `getFileName` lives in `inference/examples/Util.h`,
which is not under `src/`; per the spec (output is written to
`<output_base_path>/<input file basename>.txt`) it returns the basename of a
path: the part after the last '/'. -/
def getFileName (path : String) : String :=
  ((path.toList.reverse.takeWhile (fun c => c ≠ '/')).reverse).asString

/-- The gflags command-line surface of the example (source lines 65-110), one
field per flag, holding the parsed values. -/
structure Flags where
  max_num_threads : Nat
  input_files_base_path : String
  output_files_base_path : String
  feature_module_file : String
  acoustic_module_file : String
  transitions_file : String
  tokens_file : String
  lexicon_file : String
  input_audio_files : String
  input_audio_file_of_paths : String
  silence_token : String
  language_model_file : String
  decoder_options_file : String

/-- The external world the driver reads: the file system (full path to
contents, `none` when the open fails) and the cereal deserialization of the
transitions archive, which is an external collaborator and is kept abstract
as a function of the file contents. -/
structure Env where
  fs : String → Option String
  decodeTransitions : String → List Float

/-- Source lines 112-114. -/
def GetInputFileFullPath (flags : Flags) (fileName : String) : String :=
  GetFullPath fileName flags.input_files_base_path

/-- Source lines 116-119: the output path is built from the basename of the
input file, the output base path, and the suffix ".txt". -/
def GetOutputFileFullPath (flags : Flags) (fileName : String) : String :=
  GetFullPath (getFileName fileName) flags.output_files_base_path ++ ".txt"

/-- Modelled from the spec: `streaming::Sequential` (inference/module/nn, not
under `src/`) is an ordered composition of modules; the output of the stage
added first feeds the stage added next. A loaded module is represented by the
contents of its serialized file. -/
abbrev Sequential := List String

/-- Modelled from the spec: `Sequential::add` appends a module at the end of
the composition, as in `dnnModule->add(featureModule);
dnnModule->add(acousticModule)` (source lines 182-184). -/
def Sequential.add (s : Sequential) (m : String) : Sequential := s ++ [m]

/-- Modelled from the spec: `DecoderFactory` (inference/decoder/Decoder.h, not
under `src/`) is built from the tokens, lexicon and language-model paths, the
transition weights and the silence token (source lines 245-252). A missing
lexicon or language-model file is a fatal setup error, and the factory keeps
the transition weights it is handed. -/
structure DecoderFactory where
  tokensPath : String
  lexiconPath : String
  languageModelPath : String
  transitions : List Float
  silenceToken : String

/-- Modelled from the spec: `DecoderFactory` construction opens the lexicon
and language-model files and fails fast when either cannot be opened; on
success it records its arguments unchanged. -/
def mkDecoderFactory (env : Env) (tokensPath lexiconPath languageModelPath : String)
    (transitions : List Float) (silenceToken : String) : Except String DecoderFactory :=
  match env.fs lexiconPath with
  | none => Except.error ("failed to open lexicon file=" ++ lexiconPath ++ " for reading")
  | some _ =>
    match env.fs languageModelPath with
    | none =>
      Except.error ("failed to open language model file=" ++ languageModelPath ++ " for reading")
    | some _ =>
      Except.ok
        { tokensPath := tokensPath
          lexiconPath := lexiconPath
          languageModelPath := languageModelPath
          transitions := transitions
          silenceToken := silenceToken }

/-- One enqueued unit of work: the captures of the per-job lambda of source
lines 270-296 (input and output full paths, shared DNN module, shared decoder
factory, decoder options, token count). -/
structure Job where
  inputFilePath : String
  outputFilePath : String
  dnnModule : Sequential
  decoderFactory : DecoderFactory
  decoderOptionsContent : String
  nTokens : Nat

/-- Everything `main` has built by the time the submission loop runs. -/
structure RunResult where
  inputFiles : List String
  dnnModule : Sequential
  tokens : List String
  nTokens : Nat
  decoderOptionsContent : String
  transitions : List Float
  decoderFactory : DecoderFactory
  jobs : List Job

/-- Input enumeration (source lines 124-146): the tokenized inline list,
followed by every `getline` line of the file of paths. The file of paths is
opened without the input base-path prefix and without an `is_open` check: a
failed open simply yields no lines. -/
def enumerateInputFiles (flags : Flags) (env : Env) : List String :=
  tokenizeInline flags.input_audio_files ++
    (if flags.input_audio_file_of_paths = "" then []
     else
       match env.fs flags.input_audio_file_of_paths with
       | none => []
       | some content => getLines content)

/-- Feature module loading (source lines 155-166). -/
def loadFeatureModule (flags : Flags) (env : Env) : Except String String :=
  match env.fs (GetInputFileFullPath flags flags.feature_module_file) with
  | none =>
    Except.error ("failed to open feature file=" ++
      GetInputFileFullPath flags flags.feature_module_file ++ " for reading")
  | some content => Except.ok content

/-- Acoustic module loading (source lines 168-179). The error message
interpolates `FLAGS_feature_module_file`, not `FLAGS_acoustic_module_file`
(source line 175), and this embedding reproduces that. -/
def loadAcousticModule (flags : Flags) (env : Env) : Except String String :=
  match env.fs (GetInputFileFullPath flags flags.acoustic_module_file) with
  | none =>
    Except.error ("failed to open acoustic model file=" ++
      GetInputFileFullPath flags flags.feature_module_file ++ " for reading")
  | some content => Except.ok content

/-- Tokens loading (source lines 186-199): every `getline` result is pushed,
with no emptiness test. -/
def loadTokens (flags : Flags) (env : Env) : Except String (List String) :=
  match env.fs (GetInputFileFullPath flags flags.tokens_file) with
  | none =>
    Except.error ("failed to open tokens file=" ++
      GetInputFileFullPath flags flags.tokens_file ++ " for reading")
  | some content => Except.ok (getLines content)

/-- Decoder options loading (source lines 203-225); the cereal JSON parse is
an external collaborator, so the loaded options are represented by the file
contents. -/
def loadDecoderOptions (flags : Flags) (env : Env) : Except String String :=
  match env.fs (GetInputFileFullPath flags flags.decoder_options_file) with
  | none =>
    Except.error ("failed to open decoder options file=" ++
      GetInputFileFullPath flags flags.decoder_options_file ++ " for reading")
  | some content => Except.ok content

/-- Transitions loading (source lines 227-239): skipped when the flag is
empty, leaving the default-constructed empty vector; when the flag is set, a
failed open is a fatal error. -/
def loadTransitions (flags : Flags) (env : Env) : Except String (List Float) :=
  if flags.transitions_file = "" then Except.ok []
  else
    match env.fs (GetInputFileFullPath flags flags.transitions_file) with
    | none =>
      Except.error ("failed to open transition parameter file=" ++
        GetInputFileFullPath flags flags.transitions_file ++ " for reading")
    | some content => Except.ok (env.decodeTransitions content)

/-- The body of `main` (source lines 121-299): enumerate inputs, load the
feature module, the acoustic module, the tokens, the decoder options and the
optional transitions, build the decoder factory, then submit one job per
input file, in order. A `runtime_error` throw escapes `main` uncaught, so an
error at any load step skips everything after it, the submission loop
included. -/
def runMain (flags : Flags) (env : Env) : Except String RunResult :=
  let inputFiles := enumerateInputFiles flags env
  match loadFeatureModule flags env with
  | Except.error e => Except.error e
  | Except.ok featureModule =>
    match loadAcousticModule flags env with
    | Except.error e => Except.error e
    | Except.ok acousticModule =>
      let dnnModule : Sequential :=
        Sequential.add (Sequential.add [] featureModule) acousticModule
      match loadTokens flags env with
      | Except.error e => Except.error e
      | Except.ok tokens =>
        let nTokens := tokens.length
        match loadDecoderOptions flags env with
        | Except.error e => Except.error e
        | Except.ok decoderOptionsContent =>
          match loadTransitions flags env with
          | Except.error e => Except.error e
          | Except.ok transitions =>
            match mkDecoderFactory env (GetInputFileFullPath flags flags.tokens_file)
                (GetInputFileFullPath flags flags.lexicon_file)
                (GetInputFileFullPath flags flags.language_model_file)
                transitions flags.silence_token with
            | Except.error e => Except.error e
            | Except.ok decoderFactory =>
              Except.ok
                { inputFiles := inputFiles
                  dnnModule := dnnModule
                  tokens := tokens
                  nTokens := nTokens
                  decoderOptionsContent := decoderOptionsContent
                  transitions := transitions
                  decoderFactory := decoderFactory
                  jobs := inputFiles.map (fun f =>
                    { inputFilePath := GetInputFileFullPath flags f
                      outputFilePath := GetOutputFileFullPath flags f
                      dnnModule := dnnModule
                      decoderFactory := decoderFactory
                      decoderOptionsContent := decoderOptionsContent
                      nTokens := nTokens }) }

/-- The jobs that reach the pool's queue in a run: all of them on success,
none when `main` throws (the throw precedes pool creation and the submission
loop in program order). -/
def enqueuedJobs (flags : Flags) (env : Env) : List Job :=
  match runMain flags env with
  | Except.error _ => []
  | Except.ok r => r.jobs

/-- The output files a run writes: one per enqueued job, at that job's output
path (writing is done inside `audioFileToWordsFile`, which only ever runs as
part of an enqueued job). -/
def outputFilesWritten (flags : Flags) (env : Env) : List String :=
  (enqueuedJobs flags env).map Job.outputFilePath

/-- The statements of the per-job lambda body, in source order (lines
279-295): the fetch-increment `++processedFilesCount` of the shared atomic
counter, the progress message (which reports the captured value), then the
call to `audioFileToWordsFile`. -/
inductive JobStep
  | incrementCounter
  | logProgress
  | transcribe
  deriving DecidableEq

/-- The per-job lambda body as its sequence of steps. -/
def jobBody : List JobStep :=
  [JobStep.incrementCounter, JobStep.logProgress, JobStep.transcribe]

/-- The shared atomic counter under an arbitrary interleaving: `order` lists
the jobs in the order in which their (atomic) increments execute, starting
from counter value `c`; each job captures the incremented value, as
`++processedFilesCount` returns it (source line 279). The worker count never
appears: the number of workers only constrains which orders are realizable,
and every order is covered. -/
def runIncrements {α : Type} : List α → Nat → List (α × Nat)
  | [], _ => []
  | j :: rest, c => (j, c + 1) :: runIncrements rest (c + 1)

/-- Inversion for feature-module loading: success returns exactly the file's
contents and happens exactly when the file opens. -/
theorem loadFeatureModule_ok {flags : Flags} {env : Env} {c : String} :
    loadFeatureModule flags env = Except.ok c ↔
    env.fs (GetInputFileFullPath flags flags.feature_module_file) = some c := by
  unfold loadFeatureModule
  cases env.fs (GetInputFileFullPath flags flags.feature_module_file) <;> simp

/-- Inversion for acoustic-module loading. -/
theorem loadAcousticModule_ok {flags : Flags} {env : Env} {c : String} :
    loadAcousticModule flags env = Except.ok c ↔
    env.fs (GetInputFileFullPath flags flags.acoustic_module_file) = some c := by
  unfold loadAcousticModule
  cases env.fs (GetInputFileFullPath flags flags.acoustic_module_file) <;> simp

/-- Inversion for tokens loading: success yields exactly the `getline` lines
of the tokens file. -/
theorem loadTokens_ok {flags : Flags} {env : Env} {ts : List String} :
    loadTokens flags env = Except.ok ts ↔
    ∃ tc, env.fs (GetInputFileFullPath flags flags.tokens_file) = some tc ∧
      ts = getLines tc := by
  unfold loadTokens
  cases env.fs (GetInputFileFullPath flags flags.tokens_file) <;> simp
  exact eq_comm

/-- Inversion for decoder-options loading. -/
theorem loadDecoderOptions_ok {flags : Flags} {env : Env} {c : String} :
    loadDecoderOptions flags env = Except.ok c ↔
    env.fs (GetInputFileFullPath flags flags.decoder_options_file) = some c := by
  unfold loadDecoderOptions
  cases env.fs (GetInputFileFullPath flags flags.decoder_options_file) <;> simp

/-- Inversion for decoder-factory construction: it succeeds exactly when the
lexicon and language-model files open, and then records its arguments. -/
theorem mkDecoderFactory_ok {env : Env} {tokensPath lexiconPath languageModelPath : String}
    {transitions : List Float} {silenceToken : String} {d : DecoderFactory} :
    mkDecoderFactory env tokensPath lexiconPath languageModelPath transitions silenceToken =
      Except.ok d ↔
    (∃ lc, env.fs lexiconPath = some lc) ∧ (∃ mc, env.fs languageModelPath = some mc) ∧
      d = { tokensPath := tokensPath
            lexiconPath := lexiconPath
            languageModelPath := languageModelPath
            transitions := transitions
            silenceToken := silenceToken } := by
  unfold mkDecoderFactory
  cases env.fs lexiconPath <;> cases env.fs languageModelPath <;> simp
  exact eq_comm

/-- Inversion for a successful run of `main`: every required file opened, and
every component of the result is determined by the file contents — in
particular the DNN module is the feature module followed by the acoustic
module, the token count is the number of all `getline` lines of the tokens
file, and one job per enumerated input is submitted, in order, each carrying
the shared module, factory, options and token count. -/
theorem runMain_ok_inv {flags : Flags} {env : Env} {r : RunResult}
    (h : runMain flags env = Except.ok r) :
    ∃ fc ac tc oc,
      env.fs (GetInputFileFullPath flags flags.feature_module_file) = some fc ∧
      env.fs (GetInputFileFullPath flags flags.acoustic_module_file) = some ac ∧
      env.fs (GetInputFileFullPath flags flags.tokens_file) = some tc ∧
      env.fs (GetInputFileFullPath flags flags.decoder_options_file) = some oc ∧
      (∃ lc, env.fs (GetInputFileFullPath flags flags.lexicon_file) = some lc) ∧
      (∃ mc, env.fs (GetInputFileFullPath flags flags.language_model_file) = some mc) ∧
      loadTransitions flags env = Except.ok r.transitions ∧
      r.inputFiles = enumerateInputFiles flags env ∧
      r.dnnModule = [fc, ac] ∧
      r.tokens = getLines tc ∧
      r.nTokens = (getLines tc).length ∧
      r.decoderOptionsContent = oc ∧
      r.decoderFactory.transitions = r.transitions ∧
      r.jobs = (enumerateInputFiles flags env).map (fun f =>
        { inputFilePath := GetInputFileFullPath flags f
          outputFilePath := GetOutputFileFullPath flags f
          dnnModule := [fc, ac]
          decoderFactory := r.decoderFactory
          decoderOptionsContent := oc
          nTokens := (getLines tc).length }) := by
  cases h1 : loadFeatureModule flags env with
  | error e => simp only [runMain, h1] at h; exact Except.noConfusion h
  | ok fc =>
  cases h2 : loadAcousticModule flags env with
  | error e => simp only [runMain, h1, h2] at h; exact Except.noConfusion h
  | ok ac =>
  cases h3 : loadTokens flags env with
  | error e => simp only [runMain, h1, h2, h3] at h; exact Except.noConfusion h
  | ok tokens =>
  cases h4 : loadDecoderOptions flags env with
  | error e => simp only [runMain, h1, h2, h3, h4] at h; exact Except.noConfusion h
  | ok oc =>
  cases h5 : loadTransitions flags env with
  | error e => simp only [runMain, h1, h2, h3, h4, h5] at h; exact Except.noConfusion h
  | ok transitions =>
  cases h6 : mkDecoderFactory env (GetInputFileFullPath flags flags.tokens_file)
      (GetInputFileFullPath flags flags.lexicon_file)
      (GetInputFileFullPath flags flags.language_model_file)
      transitions flags.silence_token with
  | error e => simp only [runMain, h1, h2, h3, h4, h5, h6] at h; exact Except.noConfusion h
  | ok decoderFactory =>
  simp only [runMain, h1, h2, h3, h4, h5, h6] at h
  obtain ⟨tc, htc, htokens⟩ := loadTokens_ok.mp h3
  obtain ⟨⟨lc, hlc⟩, ⟨mc, hmc⟩, hd⟩ := mkDecoderFactory_ok.mp h6
  injection h with h
  subst h
  subst htokens
  exact ⟨fc, ac, tc, oc, loadFeatureModule_ok.mp h1, loadAcousticModule_ok.mp h2, htc,
    loadDecoderOptions_ok.mp h4, ⟨lc, hlc⟩, ⟨mc, hmc⟩, rfl, rfl, rfl, rfl, rfl, rfl,
    by rw [hd], rfl⟩

/-- Characters of a string concatenation. -/
theorem toList_append (a b : String) : (a ++ b).toList = a.toList ++ b.toList := rfl

/-- `takeWhile` swallows a whole block of satisfying elements and stops at the
first failing one. -/
theorem takeWhile_append_not {α : Type} (p : α → Bool) (l1 l2 : List α) (x : α)
    (h1 : ∀ a ∈ l1, p a = true) (hx : p x = false) :
    (l1 ++ x :: l2).takeWhile p = l1 := by
  induction l1 with
  | nil => simp [List.takeWhile_cons, hx]
  | cons a l ih =>
    simp only [List.cons_append, List.takeWhile_cons, h1 a (List.mem_cons_self a l), if_pos]
    rw [ih (fun b hb => h1 b (List.mem_cons_of_mem a hb))]

/-- A basename contains no separator, so it is never itself a full path. -/
theorem isFullPath_getFileName (path : String) : isFullPath (getFileName path) = false := by
  unfold isFullPath getFileName
  have hl : (List.asString ((path.toList.reverse.takeWhile (fun c => c ≠ '/')).reverse)).toList
      = (path.toList.reverse.takeWhile (fun c => c ≠ '/')).reverse := rfl
  rw [hl]
  cases hrev : (path.toList.reverse.takeWhile (fun c => c ≠ '/')).reverse with
  | nil => rfl
  | cons c rest =>
    have hc : c ∈ path.toList.reverse.takeWhile (fun c => c ≠ '/') := by
      rw [← List.mem_reverse, hrev]
      exact List.mem_cons_self _ _
    have hne := List.mem_takeWhile_imp hc
    simp only [decide_eq_true_eq] at hne
    simp [hne]

/-- The output path always has the shape `<base>/<basename>.txt`. -/
theorem GetOutputFileFullPath_eq (flags : Flags) (input : String) :
    GetOutputFileFullPath flags input =
      flags.output_files_base_path ++ "/" ++ getFileName input ++ ".txt" := by
  unfold GetOutputFileFullPath GetFullPath
  rw [isFullPath_getFileName]
  simp

/-- The basename discards every directory component. -/
theorem getFileName_append (dir name : String) (h : ∀ c ∈ name.toList, c ≠ '/') :
    getFileName (dir ++ "/" ++ name) = name := by
  unfold getFileName
  have hdata : (dir ++ "/" ++ name).toList = dir.toList ++ '/' :: name.toList := by
    rw [toList_append, toList_append]
    rw [show "/".toList = ['/'] from rfl, List.append_assoc]
    rfl
  rw [hdata, List.reverse_append]
  have hrv : ('/' :: name.toList).reverse = name.toList.reverse ++ ['/'] := by simp
  rw [hrv, List.append_assoc, List.singleton_append]
  rw [takeWhile_append_not _ _ _ _ (fun a ha => by
    simp only [decide_eq_true_eq]
    exact h a (List.mem_reverse.mp ha)) (by simp)]
  rw [List.reverse_reverse]
  rfl

/-- Each increment belongs to the job that executed it, in execution order. -/
theorem runIncrements_map_fst {α : Type} (l : List α) (c : Nat) :
    (runIncrements l c).map Prod.fst = l := by
  induction l generalizing c with
  | nil => rfl
  | cons j rest ih => simp [runIncrements, ih]

/-- Starting from counter value `c`, the captured values are exactly
`c+1, c+2, ...`, one per increment, whatever the interleaving. -/
theorem runIncrements_map_snd {α : Type} (l : List α) (c : Nat) :
    (runIncrements l c).map Prod.snd = List.range' (c + 1) l.length := by
  induction l generalizing c with
  | nil => rfl
  | cons j rest ih => simp [runIncrements, ih, List.range']

/-- The inline tokenizer never produces an empty entry (the scan pushes a
piece only when its length is positive). -/
theorem empty_not_mem_tokenizeInline (s : String) : "" ∉ tokenizeInline s := by
  unfold tokenizeInline
  split
  · simp
  · intro hmem
    simp only [List.mem_map] at hmem
    obtain ⟨t, ht, hts⟩ := hmem
    have htnil : t = [] := congrArg String.toList hts
    have hpos := (List.mem_filter.mp ht).2
    rw [htnil] at hpos
    simp at hpos

/-- A concrete flag assignment used to evaluate the embedding: all artifact
files under "model", output under "out", one inline input, no file of paths,
no transitions file. -/
def exampleFlags : Flags :=
  { max_num_threads := 2
    input_files_base_path := "model"
    output_files_base_path := "out"
    feature_module_file := "feat.bin"
    acoustic_module_file := "am.bin"
    transitions_file := ""
    tokens_file := "tokens.txt"
    lexicon_file := "lexicon.txt"
    input_audio_files := "a.wav"
    input_audio_file_of_paths := ""
    silence_token := "_"
    language_model_file := "lm.bin"
    decoder_options_file := "opts.json" }

/-- A concrete file system: every artifact of `exampleFlags` present; the
tokens file has three lines, the middle one empty; a file of paths whose
middle line is empty. -/
def exampleFs : String → Option String := fun p =>
  if p = "model/feat.bin" then some "FEAT"
  else if p = "model/am.bin" then some "AM"
  else if p = "model/tokens.txt" then some "a\n\nb"
  else if p = "model/opts.json" then some "OPTS"
  else if p = "model/lexicon.txt" then some "LEX"
  else if p = "model/lm.bin" then some "LM"
  else if p = "paths.txt" then some "d.wav\n\ne.wav"
  else none

/-- The concrete environment built on `exampleFs`. -/
def exampleEnv : Env := { fs := exampleFs, decodeTransitions := fun _ => [] }

/-- `exampleFlags` with the file of paths set. -/
def pathsFlags : Flags := { exampleFlags with input_audio_file_of_paths := "paths.txt" }

/-- Delete one path from a file system. -/
def removeFile (fs : String → Option String) (path : String) : String → Option String :=
  fun p => if p = path then none else fs p

/-- `exampleEnv` with the feature-module file missing. -/
def noFeatureEnv : Env := { exampleEnv with fs := removeFile exampleFs "model/feat.bin" }

/-- `exampleEnv` with the acoustic-model file missing. -/
def noAcousticEnv : Env := { exampleEnv with fs := removeFile exampleFs "model/am.bin" }


/-- Claim C1 counterexample: with a tokens file whose contents are three
getline lines "a", "", "b" — one of them empty, two non-empty — the run
succeeds and every transcription job receives token count 3, not the
non-empty-line count 2: empty lines do contribute to the count. -/
theorem tokens_nonempty_line_count_refuted :
    ∃ r, runMain exampleFlags exampleEnv = Except.ok r ∧
      exampleEnv.fs (GetInputFileFullPath exampleFlags exampleFlags.tokens_file) =
        some "a\n\nb" ∧
      getLines "a\n\nb" = ["a", "", "b"] ∧
      ((getLines "a\n\nb").filter (fun l => l ≠ "")).length = 2 ∧
      r.jobs.length = 1 ∧
      (∀ j ∈ r.jobs, j.nTokens = 3) ∧
      ¬ (∀ j ∈ r.jobs,
          j.nTokens = ((getLines "a\n\nb").filter (fun l => l ≠ "")).length) := by
  refine ⟨_, rfl, rfl, by decide, by decide, by decide, by decide, by decide⟩

/-- Claim C1 (corrected): the token count passed to every transcription job
equals the number of ALL getline lines of the tokens file, empty lines
included, and the token list preserves the file's line order verbatim. -/
theorem tokens_count_is_all_lines (flags : Flags) (env : Env) (r : RunResult) (tc : String)
    (h : runMain flags env = Except.ok r)
    (htc : env.fs (GetInputFileFullPath flags flags.tokens_file) = some tc) :
    r.tokens = getLines tc ∧ r.nTokens = (getLines tc).length ∧
    ∀ j ∈ r.jobs, j.nTokens = (getLines tc).length := by
  obtain ⟨fc, ac, tc', oc, h1, h2, h3, h4, h5, h6, h7, h8, h9, h10, h11, h12, h13, h14⟩ :=
    runMain_ok_inv h
  rw [htc] at h3
  injection h3 with e
  subst e
  refine ⟨h10, h11, ?_⟩
  rw [h14]
  intro j hj
  simp only [List.mem_map] at hj
  obtain ⟨f, hf, rfl⟩ := hj
  rfl

/-- Claim C1 witness: on the concrete environment the tokens file "a\n\nb"
yields token count 3 for the run. -/
theorem tokens_count_is_all_lines_witness :
    ∃ r, runMain exampleFlags exampleEnv = Except.ok r ∧ r.nTokens = 3 := by
  refine ⟨_, rfl, ?_⟩
  have h := tokens_count_is_all_lines exampleFlags exampleEnv _ "a\n\nb" rfl rfl
  exact h.2.1.trans (by decide)

/-- Claim C3 (confirmed): each job's body performs the fetch-increment of the
shared counter exactly once, before the transcription call; and for a batch
of K jobs, under every interleaving of the K atomic increments (each job
appearing exactly once — `order` is a permutation of the K job ids, which
covers every worker count N ≥ 1), the captured values are exactly
1, 2, ..., K: a permutation of 1..K with no duplicates and no gaps. -/
theorem progress_counter_permutation (K : Nat) (order : List Nat)
    (horder : order.Perm (List.range K)) :
    jobBody.count JobStep.incrementCounter = 1 ∧
    jobBody.indexOf JobStep.incrementCounter < jobBody.indexOf JobStep.transcribe ∧
    (runIncrements order 0).map Prod.fst = order ∧
    (runIncrements order 0).map Prod.snd = List.range' 1 K ∧
    ((runIncrements order 0).map Prod.snd).Nodup := by
  refine ⟨by decide, by decide, runIncrements_map_fst order 0, ?_, ?_⟩
  · rw [runIncrements_map_snd, horder.length_eq, List.length_range]
  · rw [runIncrements_map_snd]
    exact List.nodup_range' _ _

/-- Claim C3 witness: three jobs whose increments interleave as job 2, then
job 0, then job 1 capture the values 1, 2, 3. -/
theorem progress_counter_permutation_witness :
    (runIncrements [2, 0, 1] 0).map Prod.snd = List.range' 1 3 :=
  (progress_counter_permutation 3 [2, 0, 1] (by decide)).2.2.2.1

/-- Claim C4 (confirmed): if the feature module, acoustic module, tokens file
or decoder-options file fails to open, `main` throws before the pool exists:
the run is an error, no job is ever enqueued and no output file is written. -/
theorem setup_failure_aborts_run (flags : Flags) (env : Env)
    (h : env.fs (GetInputFileFullPath flags flags.feature_module_file) = none ∨
         env.fs (GetInputFileFullPath flags flags.acoustic_module_file) = none ∨
         env.fs (GetInputFileFullPath flags flags.tokens_file) = none ∨
         env.fs (GetInputFileFullPath flags flags.decoder_options_file) = none) :
    (∃ e, runMain flags env = Except.error e) ∧
    enqueuedJobs flags env = [] ∧ outputFilesWritten flags env = [] := by
  cases hr : runMain flags env with
  | ok r =>
    exfalso
    obtain ⟨fc, ac, tc, oc, h1, h2, h3, h4, hrest⟩ := runMain_ok_inv hr
    rcases h with h | h | h | h <;> simp_all
  | error e =>
    exact ⟨⟨e, rfl⟩, by simp [enqueuedJobs, hr], by simp [outputFilesWritten, enqueuedJobs, hr]⟩

/-- Claim C4 witness: with the feature-module file missing, the concrete run
errors out and enqueues nothing. -/
theorem setup_failure_aborts_run_witness :
    (∃ e, runMain exampleFlags noFeatureEnv = Except.error e) ∧
    enqueuedJobs exampleFlags noFeatureEnv = [] ∧
    outputFilesWritten exampleFlags noFeatureEnv = [] :=
  setup_failure_aborts_run exampleFlags noFeatureEnv (Or.inl rfl)

/-- Claim C5 (confirmed): the inline list is tokenized on commas and
semicolons with empty tokens dropped — "a.wav,b.wav;,c.wav" gives exactly
["a.wav", "b.wav", "c.wav"] — and the final input sequence is the inline
tokens followed by the lines of the file of paths, in that order, verbatim,
with no de-duplication of any kind. -/
theorem input_enumeration_merge (flags : Flags) (env : Env) (content : String)
    (hne : flags.input_audio_file_of_paths ≠ "")
    (hc : env.fs flags.input_audio_file_of_paths = some content) :
    tokenizeInline "a.wav,b.wav;,c.wav" = ["a.wav", "b.wav", "c.wav"] ∧
    enumerateInputFiles flags env =
      tokenizeInline flags.input_audio_files ++ getLines content := by
  refine ⟨by decide, ?_⟩
  unfold enumerateInputFiles
  rw [if_neg hne, hc]

/-- Claim C5 witness: inline "a.wav" plus path-file lines "d.wav", "", "e.wav"
enumerate as their concatenation. -/
theorem input_enumeration_merge_witness :
    tokenizeInline "a.wav,b.wav;,c.wav" = ["a.wav", "b.wav", "c.wav"] ∧
    enumerateInputFiles pathsFlags exampleEnv =
      tokenizeInline pathsFlags.input_audio_files ++ getLines "d.wav\n\ne.wav" :=
  input_enumeration_merge pathsFlags exampleEnv "d.wav\n\ne.wav" (by decide) rfl

/-- Claim C6 (confirmed): with an empty transitions flag the transitions step
raises no error and yields the empty vector; the factory then holds the empty
transition-weight vector; the run succeeds whenever every other artifact
opens; and the absence of any other artifact — feature module, acoustic
module, tokens, decoder options, lexicon or language model — does fail the
run, making the transitions file the only optional model artifact. -/
theorem transitions_file_optional (flags : Flags) (env : Env)
    (hempty : flags.transitions_file = "") :
    loadTransitions flags env = Except.ok [] ∧
    (∀ r, runMain flags env = Except.ok r →
      r.transitions = [] ∧ r.decoderFactory.transitions = []) ∧
    (∀ fc ac tc oc lc mc,
      env.fs (GetInputFileFullPath flags flags.feature_module_file) = some fc →
      env.fs (GetInputFileFullPath flags flags.acoustic_module_file) = some ac →
      env.fs (GetInputFileFullPath flags flags.tokens_file) = some tc →
      env.fs (GetInputFileFullPath flags flags.decoder_options_file) = some oc →
      env.fs (GetInputFileFullPath flags flags.lexicon_file) = some lc →
      env.fs (GetInputFileFullPath flags flags.language_model_file) = some mc →
      (runMain flags env).isOk = true) ∧
    (env.fs (GetInputFileFullPath flags flags.feature_module_file) = none ∨
     env.fs (GetInputFileFullPath flags flags.acoustic_module_file) = none ∨
     env.fs (GetInputFileFullPath flags flags.tokens_file) = none ∨
     env.fs (GetInputFileFullPath flags flags.decoder_options_file) = none ∨
     env.fs (GetInputFileFullPath flags flags.lexicon_file) = none ∨
     env.fs (GetInputFileFullPath flags flags.language_model_file) = none →
      ∀ r, runMain flags env ≠ Except.ok r) := by
  have htr : loadTransitions flags env = Except.ok [] := by
    unfold loadTransitions
    rw [if_pos hempty]
  refine ⟨htr, ?_, ?_, ?_⟩
  · intro r hr
    obtain ⟨fc, ac, tc, oc, h1, h2, h3, h4, h5, h6, h7, hrest⟩ := runMain_ok_inv hr
    rw [htr] at h7
    injection h7 with e
    exact ⟨e.symm, hrest.2.2.2.2.2.1.trans e.symm⟩
  · intro fc ac tc oc lc mc hfc hac htc hoc hlc hmc
    have h1 : loadFeatureModule flags env = Except.ok fc := loadFeatureModule_ok.mpr hfc
    have h2 : loadAcousticModule flags env = Except.ok ac := loadAcousticModule_ok.mpr hac
    have h3 : loadTokens flags env = Except.ok (getLines tc) := loadTokens_ok.mpr ⟨tc, htc, rfl⟩
    have h4 : loadDecoderOptions flags env = Except.ok oc := loadDecoderOptions_ok.mpr hoc
    have h6 : mkDecoderFactory env (GetInputFileFullPath flags flags.tokens_file)
        (GetInputFileFullPath flags flags.lexicon_file)
        (GetInputFileFullPath flags flags.language_model_file) [] flags.silence_token =
        Except.ok
          { tokensPath := GetInputFileFullPath flags flags.tokens_file
            lexiconPath := GetInputFileFullPath flags flags.lexicon_file
            languageModelPath := GetInputFileFullPath flags flags.language_model_file
            transitions := []
            silenceToken := flags.silence_token } :=
      mkDecoderFactory_ok.mpr ⟨⟨lc, hlc⟩, ⟨mc, hmc⟩, rfl⟩
    simp only [runMain, h1, h2, h3, h4, htr, h6]
    rfl
  · intro h r hr
    obtain ⟨fc, ac, tc, oc, h1, h2, h3, h4, ⟨lc, h5⟩, ⟨mc, h6⟩, hrest⟩ := runMain_ok_inv hr
    rcases h with h | h | h | h | h | h <;> simp_all

/-- Claim C6 witness: on the concrete environment (empty transitions flag,
all other artifacts present) the transitions step yields the empty vector,
the run succeeds, and the factory holds the empty vector. -/
theorem transitions_file_optional_witness :
    loadTransitions exampleFlags exampleEnv = Except.ok [] ∧
    (runMain exampleFlags exampleEnv).isOk = true := by
  have h := transitions_file_optional exampleFlags exampleEnv rfl
  exact ⟨h.1, h.2.2.1 "FEAT" "AM" "a\n\nb" "OPTS" "LEX" "LM" rfl rfl rfl rfl rfl rfl⟩

/-- Claim C7 (confirmed): the output path of any input is the output base
path joined with the input's basename plus ".txt"; the basename ignores every
directory component; and in a successful run each job's output path is
exactly this function of its input file. -/
theorem output_path_is_basename_txt (flags : Flags) (input : String) :
    GetOutputFileFullPath flags input =
      flags.output_files_base_path ++ "/" ++ getFileName input ++ ".txt" ∧
    (∀ dir name : String, (∀ c ∈ name.toList, c ≠ '/') →
      getFileName (dir ++ "/" ++ name) = name) ∧
    (∀ (env : Env) (r : RunResult), runMain flags env = Except.ok r →
      r.jobs.map Job.outputFilePath = r.inputFiles.map (GetOutputFileFullPath flags)) := by
  refine ⟨GetOutputFileFullPath_eq flags input, getFileName_append, ?_⟩
  intro env r hr
  obtain ⟨fc, ac, tc, oc, h1, h2, h3, h4, h5, h6, h7, h8, h9, h10, h11, h12, h13, h14⟩ :=
    runMain_ok_inv hr
  rw [h14, h8, List.map_map]
  rfl

/-- Claim C7 witness: a two-directory input "dir/sub/a.wav" maps to
"out/a.wav.txt", and concretely on a successful run. -/
theorem output_path_is_basename_txt_witness :
    GetOutputFileFullPath exampleFlags "dir/sub/a.wav" = "out/a.wav.txt" ∧
    getFileName ("dir/sub" ++ "/" ++ "a.wav") = "a.wav" := by
  have h := output_path_is_basename_txt exampleFlags "dir/sub/a.wav"
  exact ⟨h.1.trans (by decide), h.2.1 "dir/sub" "a.wav" (by decide)⟩

/-- Claim C8 (confirmed): in the combined pipeline the feature module comes
first and the acoustic module second: the composition is exactly
`add feature; add acoustic` on the empty sequential module. -/
theorem pipeline_feature_before_acoustic (flags : Flags) (env : Env) (r : RunResult)
    (fc ac : String)
    (h : runMain flags env = Except.ok r)
    (hf : env.fs (GetInputFileFullPath flags flags.feature_module_file) = some fc)
    (ha : env.fs (GetInputFileFullPath flags flags.acoustic_module_file) = some ac) :
    r.dnnModule = Sequential.add (Sequential.add [] fc) ac ∧
    r.dnnModule = [fc, ac] := by
  obtain ⟨fc', ac', tc, oc, h1, h2, hrest⟩ := runMain_ok_inv h
  rw [hf] at h1
  injection h1 with e1
  rw [ha] at h2
  injection h2 with e2
  subst e1
  subst e2
  have h9 := hrest.2.2.2.2.2.2.1
  exact ⟨by rw [h9]; rfl, h9⟩

/-- Claim C8 witness: the concrete run composes the feature contents before
the acoustic contents. -/
theorem pipeline_feature_before_acoustic_witness :
    ∃ r, runMain exampleFlags exampleEnv = Except.ok r ∧ r.dnnModule = ["FEAT", "AM"] := by
  refine ⟨_, rfl, ?_⟩
  exact (pipeline_feature_before_acoustic exampleFlags exampleEnv _ "FEAT" "AM" rfl rfl rfl).2

/-- Claim C9 (confirmed): every getline line of the file of paths — empty
lines included — is appended verbatim, after the inline tokens, to the input
list, and each such line yields exactly one submitted job (the line count
adds to the job count and each job's input path is derived from its line);
by contrast the inline tokenizer never contributes an empty entry. -/
theorem file_of_paths_lines_become_jobs (flags : Flags) (env : Env) (content : String)
    (r : RunResult)
    (hne : flags.input_audio_file_of_paths ≠ "")
    (hc : env.fs flags.input_audio_file_of_paths = some content)
    (h : runMain flags env = Except.ok r) :
    r.inputFiles = tokenizeInline flags.input_audio_files ++ getLines content ∧
    r.jobs.map Job.inputFilePath = r.inputFiles.map (GetInputFileFullPath flags) ∧
    r.jobs.length =
      (tokenizeInline flags.input_audio_files).length + (getLines content).length ∧
    (∀ s : String, "" ∉ tokenizeInline s) := by
  obtain ⟨fc, ac, tc, oc, h1, h2, h3, h4, h5, h6, h7, h8, h9, h10, h11, h12, h13, h14⟩ :=
    runMain_ok_inv h
  have henum : enumerateInputFiles flags env =
      tokenizeInline flags.input_audio_files ++ getLines content := by
    unfold enumerateInputFiles
    rw [if_neg hne, hc]
  refine ⟨h8.trans henum, ?_, ?_, fun s => empty_not_mem_tokenizeInline s⟩
  · rw [h14, h8, List.map_map]
    rfl
  · rw [h14, List.length_map, henum, List.length_append]

/-- Claim C9 witness: with inline "a.wav" and path-file lines
"d.wav", "", "e.wav", the run has the four inputs in order — the empty line
kept verbatim — and four jobs. -/
theorem file_of_paths_lines_become_jobs_witness :
    ∃ r, runMain pathsFlags exampleEnv = Except.ok r ∧
      r.inputFiles = ["a.wav", "d.wav", "", "e.wav"] ∧ r.jobs.length = 4 := by
  refine ⟨_, rfl, ?_, ?_⟩
  · have h := file_of_paths_lines_become_jobs pathsFlags exampleEnv "d.wav\n\ne.wav" _
      (by decide) rfl rfl
    exact h.1.trans (by decide)
  · have h := file_of_paths_lines_become_jobs pathsFlags exampleEnv "d.wav\n\ne.wav" _
      (by decide) rfl rfl
    exact h.2.2.1.trans (by decide)

/-- Claim C10 (confirmed): when the acoustic-model file fails to open, the
error message names the full path derived from the feature-module file name
(source line 175); every other setup-failure message — feature module,
tokens, decoder options, transitions — names the path of the file that
actually failed. -/
theorem acoustic_error_message_names_feature_file (flags : Flags) (env : Env) :
    (env.fs (GetInputFileFullPath flags flags.acoustic_module_file) = none →
      loadAcousticModule flags env = Except.error
        ("failed to open acoustic model file=" ++
          GetInputFileFullPath flags flags.feature_module_file ++ " for reading")) ∧
    (env.fs (GetInputFileFullPath flags flags.feature_module_file) = none →
      loadFeatureModule flags env = Except.error
        ("failed to open feature file=" ++
          GetInputFileFullPath flags flags.feature_module_file ++ " for reading")) ∧
    (env.fs (GetInputFileFullPath flags flags.tokens_file) = none →
      loadTokens flags env = Except.error
        ("failed to open tokens file=" ++
          GetInputFileFullPath flags flags.tokens_file ++ " for reading")) ∧
    (env.fs (GetInputFileFullPath flags flags.decoder_options_file) = none →
      loadDecoderOptions flags env = Except.error
        ("failed to open decoder options file=" ++
          GetInputFileFullPath flags flags.decoder_options_file ++ " for reading")) ∧
    (flags.transitions_file ≠ "" →
      env.fs (GetInputFileFullPath flags flags.transitions_file) = none →
      loadTransitions flags env = Except.error
        ("failed to open transition parameter file=" ++
          GetInputFileFullPath flags flags.transitions_file ++ " for reading")) := by
  refine ⟨fun h => ?_, fun h => ?_, fun h => ?_, fun h => ?_, fun h1 h2 => ?_⟩
  · simp [loadAcousticModule, h]
  · simp [loadFeatureModule, h]
  · simp [loadTokens, h]
  · simp [loadDecoderOptions, h]
  · simp [loadTransitions, h1, h2]

/-- Claim C10 witness: on the concrete environment with the acoustic file
missing, the message literally names the feature-module path
"model/feat.bin", not the acoustic path "model/am.bin". -/
theorem acoustic_error_message_names_feature_file_witness :
    loadAcousticModule exampleFlags noAcousticEnv =
      Except.error "failed to open acoustic model file=model/feat.bin for reading" := by
  have h := (acoustic_error_message_names_feature_file exampleFlags noAcousticEnv).1 rfl
  exact h.trans rfl

end StreamingASR
